import Mathlib

/-!
Verification of the BS440 BLE scale integration.

Shallow embedding of the repository's core logic:
* `parse_measurement` — the binary frame decoder (`medisana.py`,
  `MedisanaBS440.parse_measurement`): bytes are modelled as `List Nat`,
  out-of-range index access and short `struct.unpack` slices are modelled by
  `Option` failure (the Python code catches every exception and returns
  `None`).
* the measurement aggregator (`plugins/bs440mqtt.py`,
  `BS440mqtt.process_measurements` / `process_measurement`): the Python dict
  `most_recent` is modelled as an association list with insert-or-overwrite
  semantics.
* the session control flow of `ble_scanner.py`
  (`BLEScanner.connect_to_device`, `_process_collected_measurements`,
  `scan_devices`), modelled as pure functions over an explicit environment
  describing the nondeterministic transport events.
-/

/-- Little-endian 16-bit value from two bytes, as produced by
`struct.unpack('<H', ...)`. -/
def le16 (a b : Nat) : Nat := a + 256 * b

/-- Little-endian 32-bit value from four bytes, as produced by
`struct.unpack('<I', ...)`. -/
def le32 (a b c d : Nat) : Nat := a + 256 * b + 65536 * c + 16777216 * d

/-- Gender decoded from a person frame (`'male' if data[4] == 1 else 'female'`). -/
inductive Gender where
  | male
  | female
  deriving DecidableEq, Repr

/-- Activity level decoded from a person frame
(`'high' if data[8] == 3 else 'normal'`). -/
inductive Activity where
  | high
  | normal
  deriving DecidableEq, Repr

/-- The `'type'` tag of a decoded measurement dict
(`'person'`, `'weight'`, `'body'`). -/
inductive MKind where
  | person
  | weight
  | body
  deriving DecidableEq, Repr

/-- Fields of a decoded `0x84` person frame. -/
structure PersonInfo where
  person : Nat
  gender : Gender
  age : Nat
  size : Nat
  activity : Activity
  deriving DecidableEq, Repr

/-- Fields of a decoded `0x1D` weight frame.  `timestamp` is the sanitized
Unix time (the Python code additionally converts it to a `datetime`, falling
back to the current wall clock when conversion fails; the calendar conversion
is modelled separately by `unixToUTC`). -/
structure WeightReading where
  weight : ℚ
  stabilized : Bool
  impedance_measured : Bool
  timestamp : Nat
  person : Nat
  deriving DecidableEq, Repr

/-- Fields of a decoded `0x6F` body-composition frame. -/
structure BodyComposition where
  timestamp : Nat
  person : Nat
  kcal : Nat
  fat : ℚ
  tbw : ℚ
  muscle : ℚ
  bone : ℚ
  deriving DecidableEq, Repr

/-- A decoded measurement (the tagged dict produced by `parse_measurement`). -/
inductive Measurement where
  | personInfo (p : PersonInfo)
  | weight (w : WeightReading)
  | body (b : BodyComposition)
  deriving DecidableEq, Repr

/-- The `'type'` field of a measurement dict. -/
def Measurement.kind : Measurement → MKind
  | .personInfo _ => .person
  | .weight _ => .weight
  | .body _ => .body

/-- The `'person'` field of a measurement dict (set by the decoder for all
three frame kinds). -/
def Measurement.personId : Measurement → Nat
  | .personInfo p => p.person
  | .weight w => w.person
  | .body b => b.person

/-- The era offset used by the decoder and the time-sync command:
`1262304000`, the Unix timestamp of 2010-01-01T00:00:00 UTC. -/
def time_offset : Nat := 1262304000

/-- Timestamp sanitization from `parse_measurement` (`medisana.py`): first,
if `raw + time_offset < maxsize` use `raw + time_offset` else use `raw`;
afterwards, if `raw >= maxsize` force the result to `0`.  `maxsize` models
`sys.maxsize` of the host. -/
def sanitizeTimestamp (maxsize raw : Nat) : Nat :=
  let unix := if raw + time_offset < maxsize then raw + time_offset else raw
  if maxsize ≤ raw then 0 else unix

/-- `sys.maxsize` on a 64-bit CPython build. -/
def sysMaxsize : Nat := 2 ^ 63 - 1

/-- `struct.unpack('<H', data[i:i+2])[0]`: fails (raises, hence `none`) when
the slice is shorter than two bytes. -/
def read_u16 (data : List Nat) (i : Nat) : Option Nat := do
  let a ← data.get? i
  let b ← data.get? (i + 1)
  pure (le16 a b)

/-- `struct.unpack('<I', data[i:i+4])[0]`: fails (raises, hence `none`) when
the slice is shorter than four bytes. -/
def read_u32 (data : List Nat) (i : Nat) : Option Nat := do
  let a ← data.get? i
  let b ← data.get? (i + 1)
  let c ← data.get? (i + 2)
  let d ← data.get? (i + 3)
  pure (le32 a b c d)

/-- The `0x84` (person data) branch of `parse_measurement`. -/
def parse84 (data : List Nat) : Option Measurement := do
  let p ← data.get? 2
  let g ← data.get? 4
  let age ← data.get? 5
  let size ← data.get? 6
  let act ← data.get? 8
  pure (.personInfo
    { person := p
      gender := if g = 1 then .male else .female
      age := age
      size := size
      activity := if act = 3 then .high else .normal })

/-- The `0x1D` (weight data) branch of `parse_measurement`. -/
def parse1D (maxsize : Nat) (data : List Nat) : Option Measurement := do
  let w ← read_u16 data 1
  let st ← data.get? 3
  let raw ← read_u32 data 5
  let p ← data.get? 13
  pure (.weight
    { weight := (w : ℚ) / 100
      stabilized := (st &&& 0x01) != 0
      impedance_measured := (st &&& 0x02) != 0
      timestamp := sanitizeTimestamp maxsize raw
      person := p })

/-- The `0x6F` (body composition) branch of `parse_measurement`. -/
def parse6F (maxsize : Nat) (data : List Nat) : Option Measurement := do
  let raw ← read_u32 data 1
  let p ← data.get? 5
  let kcal ← read_u16 data 6
  let fat ← read_u16 data 8
  let water ← read_u16 data 10
  let muscle ← read_u16 data 12
  let bone ← read_u16 data 14
  pure (.body
    { timestamp := sanitizeTimestamp maxsize raw
      person := p
      kcal := kcal
      fat := ((0x0FFF &&& fat : Nat) : ℚ) / 10
      tbw := ((0x0FFF &&& water : Nat) : ℚ) / 10
      muscle := ((0x0FFF &&& muscle : Nat) : ℚ) / 10
      bone := ((0x0FFF &&& bone : Nat) : ℚ) / 10 })

/-- Shallow embedding of `MedisanaBS440.parse_measurement` (`medisana.py`).
Dispatches on the first byte; every byte access models the corresponding
Python index/`struct.unpack` access, with `Option` failure standing for the
raised-and-caught exception (`except Exception: return None`); unknown
opcodes return `None`.  `maxsize` models `sys.maxsize`. -/
def parse_measurement (maxsize : Nat) (data : List Nat) : Option Measurement := do
  let b0 ← data.get? 0
  if b0 = 0x84 then parse84 data
  else if b0 = 0x1D then parse1D maxsize data
  else if b0 = 0x6F then parse6F maxsize data
  else none

/-- A calendar date-time in UTC. -/
structure UTCTime where
  year : Nat
  month : Nat
  day : Nat
  hour : Nat
  minute : Nat
  second : Nat
  deriving DecidableEq, Repr

/-- Civil date from a count of days since 1970-01-01 (proleptic Gregorian
calendar, standard Hinnant algorithm restricted to nonnegative days).
Models the calendar conversion the Python runtime performs in
`datetime.fromtimestamp` for a UTC host. -/
def civilFromDays (z : Nat) : Nat × Nat × Nat :=
  let doe := (z + 719468) % 146097
  let era := (z + 719468) / 146097
  let yoe := (doe - doe / 1460 + doe / 36524 - doe / 146096) / 365
  let y := yoe + era * 400
  let doy := doe - (365 * yoe + yoe / 4 - yoe / 100)
  let mp := (5 * doy + 2) / 153
  let d := doy - (153 * mp + 2) / 5 + 1
  let m := if mp < 10 then mp + 3 else mp - 9
  (if m ≤ 2 then y + 1 else y, m, d)

/-- Unix seconds to a UTC calendar timestamp. -/
def unixToUTC (t : Nat) : UTCTime :=
  let days := t / 86400
  let rem := t % 86400
  let ymd := civilFromDays days
  { year := ymd.1
    month := ymd.2.1
    day := ymd.2.2
    hour := rem / 3600
    minute := rem % 3600 / 60
    second := rem % 60 }

/-! ### Decoder claims -/

/-- Claim C3: the decoder is total (its embedding returns `Option`, every
Python exception path being the `none` result): an unknown first-byte opcode
yields `none`, a 3-byte truncated `0x1D` weight frame yields `none`, and the
empty payload yields `none` — never a raised error. -/
theorem parse_measurement_bad_input_none (maxsize b0 a b : Nat) (rest : List Nat)
    (h84 : b0 ≠ 0x84) (h1D : b0 ≠ 0x1D) (h6F : b0 ≠ 0x6F) :
    parse_measurement maxsize (b0 :: rest) = none
    ∧ parse_measurement maxsize [0x1D, a, b] = none
    ∧ parse_measurement maxsize [] = none := by
  refine ⟨?_, rfl, rfl⟩
  simp [parse_measurement, h84, h1D, h6F]

/-- Witness for C3: opcode `0xFF` with a nonempty payload and a concrete
3-byte truncated weight frame both decode to `none`. -/
theorem parse_measurement_bad_input_none_witness :
    parse_measurement sysMaxsize (0xFF :: [1, 2, 3]) = none
    ∧ parse_measurement sysMaxsize [0x1D, 7, 8] = none
    ∧ parse_measurement sysMaxsize [] = none :=
  parse_measurement_bad_input_none sysMaxsize 0xFF 7 8 [1, 2, 3]
    (by decide) (by decide) (by decide)

/-- Claim C4: every `0x1D` frame of sufficient length (≥ 14 bytes, written as
a cons-shape) decodes with `weight = (little-endian uint16 at offsets 1..3) /
100`, `stabilized = bit 0` and `impedance_measured = bit 1` of the status
byte at offset 3; in particular raw weight `7500` with status `0x03` yields
`75` kg with both flags set. -/
theorem parse_measurement_weight_frame
    (maxsize b1 b2 b3 b4 b5 b6 b7 b8 b9 b10 b11 b12 b13 : Nat) (rest : List Nat) :
    parse_measurement maxsize
      (0x1D :: b1 :: b2 :: b3 :: b4 :: b5 :: b6 :: b7 :: b8 :: b9 :: b10 :: b11 :: b12 :: b13 :: rest)
    = some (.weight
      { weight := ((b1 + 256 * b2 : Nat) : ℚ) / 100
        stabilized := (b3 &&& 0x01) != 0
        impedance_measured := (b3 &&& 0x02) != 0
        timestamp := sanitizeTimestamp maxsize (b5 + 256 * b6 + 65536 * b7 + 16777216 * b8)
        person := b13 })
    ∧ parse_measurement sysMaxsize [0x1D, 0x4C, 0x1D, 0x03, 0, 0, 0, 0, 0, 0, 0, 0, 0, 2]
    = some (.weight
      { weight := 75
        stabilized := true
        impedance_measured := true
        timestamp := 1262304000
        person := 2 }) := by
  refine ⟨rfl, ?_⟩
  show some _ = _
  norm_num [sanitizeTimestamp, sysMaxsize, time_offset, le16, le32]
  decide

/-- Claim C5: every `0x6F` frame of sufficient length (≥ 16 bytes, written as
a cons-shape) decodes with fat, water, muscle and bone each equal to
`(raw little-endian uint16 &&& 0x0FFF) / 10` while `kcal` is the unmasked
little-endian uint16; in particular a fat field of `0x1064` yields `10`. -/
theorem parse_measurement_body_frame
    (maxsize t1 t2 t3 t4 p k1 k2 f1 f2 wa1 wa2 m1 m2 bo1 bo2 : Nat) (rest : List Nat) :
    parse_measurement maxsize
      (0x6F :: t1 :: t2 :: t3 :: t4 :: p :: k1 :: k2 :: f1 :: f2 :: wa1 :: wa2 :: m1 :: m2 :: bo1 :: bo2 :: rest)
    = some (.body
      { timestamp := sanitizeTimestamp maxsize (t1 + 256 * t2 + 65536 * t3 + 16777216 * t4)
        person := p
        kcal := k1 + 256 * k2
        fat := ((0x0FFF &&& (f1 + 256 * f2) : Nat) : ℚ) / 10
        tbw := ((0x0FFF &&& (wa1 + 256 * wa2) : Nat) : ℚ) / 10
        muscle := ((0x0FFF &&& (m1 + 256 * m2) : Nat) : ℚ) / 10
        bone := ((0x0FFF &&& (bo1 + 256 * bo2) : Nat) : ℚ) / 10 })
    ∧ parse_measurement sysMaxsize
        [0x6F, 0, 0, 0, 0, 1, 0, 0, 0x64, 0x10, 0, 0, 0, 0, 0, 0]
    = some (.body
      { timestamp := 1262304000
        person := 1
        kcal := 0
        fat := 10
        tbw := 0
        muscle := 0
        bone := 0 }) := by
  refine ⟨rfl, ?_⟩
  show some _ = _
  rw [show (0x0FFF &&& le16 0x64 0x10 : Nat) = 100 from by decide,
      show (0x0FFF &&& le16 0 0 : Nat) = 0 from by decide]
  norm_num [sanitizeTimestamp, sysMaxsize, time_offset, le16, le32]

/-- Claim C6: a weight frame whose raw uint32 timestamp field is `0` decodes
(on a 64-bit host) to the sanitized Unix time `0 + 1262304000 = 1262304000`,
whose UTC calendar rendering is 2010-01-01T00:00:00. -/
theorem parse_measurement_timestamp_zero_epoch :
    (∃ w : WeightReading,
      parse_measurement sysMaxsize [0x1D, 0, 0, 0, 0, 0, 0, 0, 0, 0, 0, 0, 0, 1]
        = some (.weight w) ∧ w.timestamp = 1262304000)
    ∧ unixToUTC 1262304000 = ⟨2010, 1, 1, 0, 0, 0⟩ :=
  ⟨⟨_, rfl, by decide⟩, by decide⟩

/-- Claim C10: whenever `maxsize` (modelling `sys.maxsize`) is at least
`2^32 + 1262304000` — true of every 64-bit build — the sanitization of any
raw 32-bit timestamp takes the first branch: the result is always
`raw + 1262304000`, and the raw-passthrough and force-zero branches are
unreachable. -/
theorem sanitizeTimestamp_offset_branch (maxsize r : Nat)
    (hmax : 2 ^ 32 + 1262304000 ≤ maxsize) (hr : r < 2 ^ 32) :
    sanitizeTimestamp maxsize r = r + 1262304000 := by
  have h32 : (2 : Nat) ^ 32 = 4294967296 := by norm_num
  rw [h32] at hmax hr
  simp only [sanitizeTimestamp, time_offset]
  rw [if_neg (by omega), if_pos (by omega)]

/-- Witness for C10: on a 64-bit host the largest 32-bit raw timestamp is
still shifted by the era offset. -/
theorem sanitizeTimestamp_offset_branch_witness :
    sanitizeTimestamp sysMaxsize 4294967295 = 4294967295 + 1262304000 :=
  sanitizeTimestamp_offset_branch sysMaxsize 4294967295
    (by norm_num [sysMaxsize]) (by norm_num)

/-! ### Measurement aggregation (`plugins/bs440mqtt.py`, `BS440mqtt`) -/

/-- The Python dict `self.most_recent` keyed by `(person_id, measurement_type)`,
modelled as an association list with unique keys: `self.most_recent[key] =
measurement` overwrites an existing entry in place or appends a new one. -/
def dictInsert (m : List ((Nat × MKind) × Measurement)) (k : Nat × MKind)
    (v : Measurement) : List ((Nat × MKind) × Measurement) :=
  if m.any (fun e => e.1 = k) then
    m.map (fun e => if e.1 = k then (k, v) else e)
  else m ++ [(k, v)]

/-- Dict lookup on the association list. -/
def dictLookup (m : List ((Nat × MKind) × Measurement)) (k : Nat × MKind) :
    Option Measurement :=
  (m.find? (fun e => e.1 = k)).map Prod.snd

/-- `BS440mqtt.process_measurement`: skip `'person'`-type measurements,
otherwise store the measurement at key `(person, type)`, overwriting any
earlier entry (last write wins). -/
def process_measurement (most_recent : List ((Nat × MKind) × Measurement))
    (m : Measurement) : List ((Nat × MKind) × Measurement) :=
  if m.kind = MKind.person then most_recent
  else dictInsert most_recent (m.personId, m.kind) m

/-- The first pass of `BS440mqtt.process_measurements`:
`for measurement in reversed(measurements): if type == 'person': break`. -/
def findLastPerson (measurements : List Measurement) : Option Measurement :=
  measurements.reverse.find? (fun m => m.kind = MKind.person)

/-- `BS440mqtt.process_measurements`: reset the map, identify the current
person from the last `'person'` entry (returning with an empty map when there
is none), then track every measurement whose `person` equals the current
person. -/
def process_measurements (measurements : List Measurement) :
    List ((Nat × MKind) × Measurement) :=
  match findLastPerson measurements with
  | none => []
  | some pm =>
    (measurements.filter (fun m => m.personId = pm.personId)).foldl
      process_measurement []

/-- The `current_person_id` resolved by `process_measurements` (or `none` when
no `'person'` measurement exists in the batch). -/
def currentPersonOf (measurements : List Measurement) : Option Nat :=
  (findLastPerson measurements).map Measurement.personId

/-- The measurements the third pass of `process_measurements` attempts to
publish: the values of the `most_recent` map (when the map is empty nothing
is published). -/
def publishedMeasurements (measurements : List Measurement) : List Measurement :=
  (process_measurements measurements).map Prod.snd

/-- Specification-side notion of recency: the measurement with the highest
arrival index satisfying `p` (later entries take precedence; embedded
timestamps play no role). -/
def lastMatching (p : Measurement → Bool) : List Measurement → Option Measurement
  | [] => none
  | m :: t => (lastMatching p t).or (if p m then some m else none)

theorem find?_reverse_eq_lastMatching (p : Measurement → Bool) :
    ∀ l : List Measurement, l.reverse.find? p = lastMatching p l := by
  intro l
  induction l with
  | nil => rfl
  | cons m t ih =>
    simp only [List.reverse_cons, List.find?_append, ih, lastMatching]
    cases lastMatching p t <;> cases hp : p m <;>
      simp [List.find?, hp, Option.or]

theorem dictInsert_mem (m : List ((Nat × MKind) × Measurement)) (k : Nat × MKind)
    (v : Measurement) : ∀ e ∈ dictInsert m k v, e = (k, v) ∨ e ∈ m := by
  intro e he
  unfold dictInsert at he
  by_cases h : m.any (fun e => e.1 = k)
  · rw [if_pos h] at he
    obtain ⟨e', he', rfl⟩ := List.mem_map.mp he
    by_cases hk : e'.1 = k
    · left; simp [hk]
    · right; simpa [hk] using he'
  · rw [if_neg h] at he
    rcases List.mem_append.mp he with h' | h'
    · right; exact h'
    · left; simpa using h'

theorem find?_map_overwrite_self (k : Nat × MKind) (v : Measurement) :
    ∀ m : List ((Nat × MKind) × Measurement),
      (m.any (fun e => e.1 = k)) = true →
      (m.map (fun e => if e.1 = k then (k, v) else e)).find? (fun e => e.1 = k)
        = some (k, v) := by
  intro m
  induction m with
  | nil => intro h; cases h
  | cons a t ih =>
    intro h
    by_cases ha : a.1 = k
    · simp [List.find?, ha]
    · have ht : (t.any (fun e => e.1 = k)) = true := by
        simpa [List.any_cons, ha] using h
      simpa [List.find?, ha] using ih ht

theorem find?_map_overwrite_ne (k k' : Nat × MKind) (v : Measurement)
    (hkk : k ≠ k') :
    ∀ m : List ((Nat × MKind) × Measurement),
      (m.map (fun e => if e.1 = k then (k, v) else e)).find? (fun e => e.1 = k')
        = m.find? (fun e => e.1 = k') := by
  intro m
  induction m with
  | nil => rfl
  | cons a t ih =>
    by_cases ha : a.1 = k
    · simp only [List.map_cons, if_pos ha, List.find?]
      rw [show decide ((k, v).1 = k') = false from by simpa using hkk,
        show decide (a.1 = k') = false from by simp [ha, hkk]]
      exact ih
    · by_cases ha' : a.1 = k'
      · simp only [List.map_cons, if_neg ha, List.find?]
        rw [show decide (a.1 = k') = true from by simpa using ha']
      · simp only [List.map_cons, if_neg ha, List.find?]
        rw [show decide (a.1 = k') = false from by simpa using ha']
        exact ih

theorem find?_of_any_false (k : Nat × MKind) :
    ∀ m : List ((Nat × MKind) × Measurement),
      (m.any (fun e => e.1 = k)) = false →
      m.find? (fun e => e.1 = k) = none := by
  intro m
  induction m with
  | nil => intro _; rfl
  | cons a t ih =>
    intro h
    rw [List.any_cons, Bool.or_eq_false_iff] at h
    simp only [List.find?]
    rw [h.1]
    exact ih h.2

theorem dictLookup_insert_self (m : List ((Nat × MKind) × Measurement))
    (k : Nat × MKind) (v : Measurement) :
    dictLookup (dictInsert m k v) k = some v := by
  unfold dictInsert dictLookup
  by_cases h : m.any (fun e => e.1 = k)
  · rw [if_pos h, find?_map_overwrite_self k v m h]
    rfl
  · rw [if_neg h, List.find?_append,
      find?_of_any_false k m (Bool.eq_false_iff.mpr h)]
    simp [List.find?]

theorem dictLookup_insert_ne (m : List ((Nat × MKind) × Measurement))
    (k k' : Nat × MKind) (v : Measurement) (h : k ≠ k') :
    dictLookup (dictInsert m k v) k' = dictLookup m k' := by
  unfold dictInsert dictLookup
  by_cases hany : m.any (fun e => e.1 = k)
  · rw [if_pos hany, find?_map_overwrite_ne k k' v h m]
  · rw [if_neg hany, List.find?_append]
    have : ([(k, v)].find? (fun e => e.1 = k')) = none := by
      simp [List.find?, h]
    rw [this]
    cases m.find? (fun e => e.1 = k') <;> rfl

theorem process_foldl_lookup (p : Nat) (k : MKind) (hk : k ≠ MKind.person) :
    ∀ (ms : List Measurement) (acc : List ((Nat × MKind) × Measurement)),
      dictLookup (ms.foldl process_measurement acc) (p, k)
        = (lastMatching (fun m => m.personId = p ∧ m.kind = k) ms).or
            (dictLookup acc (p, k)) := by
  intro ms
  induction ms with
  | nil => intro acc; rfl
  | cons m t ih =>
    intro acc
    have key : dictLookup (process_measurement acc m) (p, k)
        = (if (fun m => m.personId = p ∧ m.kind = k : Measurement → Bool) m
            then some m else none).or (dictLookup acc (p, k)) := by
      unfold process_measurement
      by_cases hm : m.kind = MKind.person
      · have hfalse : ((fun m => m.personId = p ∧ m.kind = k : Measurement → Bool) m) = false := by
          simp only [decide_eq_false_iff_not]
          intro hc
          exact hk (hc.2.symm.trans hm)
        rw [if_pos hm, hfalse]
        rfl
      · rw [if_neg hm]
        by_cases hpk : m.personId = p ∧ m.kind = k
        · rw [show ((m.personId, m.kind) : Nat × MKind) = (p, k)
              from by rw [hpk.1, hpk.2],
            dictLookup_insert_self,
            show ((fun m => m.personId = p ∧ m.kind = k : Measurement → Bool) m) = true
              from by simpa using hpk]
          rfl
        · rw [dictLookup_insert_ne _ _ _ _
              (by intro hc; exact hpk ⟨congrArg Prod.fst hc, congrArg Prod.snd hc⟩),
            show ((fun m => m.personId = p ∧ m.kind = k : Measurement → Bool) m) = false
              from by simpa using hpk]
          rfl
    simp only [List.foldl_cons, lastMatching]
    rw [ih, key]
    cases lastMatching (fun m => m.personId = p ∧ m.kind = k) t <;>
      cases hpm : (if (fun m => m.personId = p ∧ m.kind = k : Measurement → Bool) m
        then some m else none) <;> rfl

theorem lastMatching_filter (p q : Measurement → Bool)
    (hpq : ∀ m, p m = true → q m = true) :
    ∀ ms : List Measurement, lastMatching p (ms.filter q) = lastMatching p ms := by
  intro ms
  induction ms with
  | nil => rfl
  | cons m t ih =>
    by_cases hq : q m = true
    · rw [List.filter_cons_of_pos hq]
      simp only [lastMatching]
      rw [ih]
    · rw [List.filter_cons_of_neg (by simpa using hq)]
      simp only [lastMatching]
      rw [ih, show p m = false from by
          cases hp : p m
          · rfl
          · exact absurd (hpq m hp) hq]
      cases lastMatching p t <;> rfl

theorem process_foldl_person (p : Nat) :
    ∀ (ms : List Measurement) (acc : List ((Nat × MKind) × Measurement)),
      (∀ e ∈ acc, e.2.personId = p) → (∀ m ∈ ms, m.personId = p) →
      ∀ e ∈ ms.foldl process_measurement acc, e.2.personId = p := by
  intro ms
  induction ms with
  | nil => intro acc hacc _ e he; exact hacc e he
  | cons m t ih =>
    intro acc hacc hms e he
    refine ih (process_measurement acc m) ?_
      (fun m' hm' => hms m' (List.mem_cons_of_mem _ hm')) e he
    intro e' he'
    unfold process_measurement at he'
    by_cases hm : m.kind = MKind.person
    · rw [if_pos hm] at he'
      exact hacc e' he'
    · rw [if_neg hm] at he'
      rcases dictInsert_mem _ _ _ e' he' with rfl | h'
      · exact hms m (List.mem_cons_self m t)
      · exact hacc e' h'

/-! ### Aggregation claims -/

/-- Claim C1: the aggregator resolves the current person as the `person`
field of the last `'person'`-type entry in arrival order; a batch without any
`'person'` entry aggregates to the empty map and publishes nothing; and every
measurement retained in the aggregated map belongs to the current person. -/
theorem aggregation_current_person (ms : List Measurement) :
    currentPersonOf ms
      = (lastMatching (fun m => m.kind = MKind.person) ms).map Measurement.personId
    ∧ (lastMatching (fun m => m.kind = MKind.person) ms = none →
        process_measurements ms = [] ∧ publishedMeasurements ms = [])
    ∧ (∀ pm, lastMatching (fun m => m.kind = MKind.person) ms = some pm →
        ∀ e ∈ process_measurements ms, e.2.personId = pm.personId) := by
  have hbridge : findLastPerson ms = lastMatching (fun m => m.kind = MKind.person) ms :=
    find?_reverse_eq_lastMatching _ ms
  refine ⟨?_, ?_, ?_⟩
  · unfold currentPersonOf
    rw [hbridge]
  · intro hnone
    have h1 : process_measurements ms = [] := by
      unfold process_measurements
      rw [hbridge, hnone]
    refine ⟨h1, ?_⟩
    unfold publishedMeasurements
    rw [h1]
    rfl
  · intro pm hpm e he
    have h1 : process_measurements ms
        = (ms.filter (fun m => m.personId = pm.personId)).foldl process_measurement [] := by
      unfold process_measurements
      rw [hbridge, hpm]
    rw [h1] at he
    refine process_foldl_person pm.personId _ [] (fun e' he' => absurd he' (List.not_mem_nil e')) ?_ e he
    intro m' hm'
    simpa using List.of_mem_filter hm'

/-- Concrete `'person'` measurement used in witnesses. -/
def pInfo (n : Nat) : Measurement :=
  .personInfo { person := n, gender := .male, age := 30, size := 180, activity := .normal }

/-- Concrete weight measurement used in witnesses. -/
def wRead (n ts : Nat) (x : ℚ) : Measurement :=
  .weight { weight := x, stabilized := true, impedance_measured := false,
            timestamp := ts, person := n }

/-- Witness for C1: the batch `[PersonInfo(p=1), PersonInfo(p=2),
Weight(p=2)]` resolves current person 2, and the weight entry retained in the
map belongs to person 2. -/
theorem aggregation_current_person_witness :
    currentPersonOf [pInfo 1, pInfo 2, wRead 2 100 75] = some 2
    ∧ (wRead 2 100 75).personId = 2 :=
  ⟨(aggregation_current_person [pInfo 1, pInfo 2, wRead 2 100 75]).1.trans (by decide),
   (aggregation_current_person [pInfo 1, pInfo 2, wRead 2 100 75]).2.2 (pInfo 2) (by decide)
     ((2, MKind.weight), wRead 2 100 75) (by decide)⟩

/-- Claim C2: for the current person and any measurement kind other than
`'person'`, the aggregated map holds exactly the most recently arrived
(highest arrival index) measurement of that kind — embedded timestamps play
no role in `lastMatching`. -/
theorem aggregation_last_write_wins (ms : List Measurement) (pm : Measurement) (k : MKind)
    (hpm : lastMatching (fun m => m.kind = MKind.person) ms = some pm)
    (hk : k ≠ MKind.person) :
    dictLookup (process_measurements ms) (pm.personId, k)
      = lastMatching (fun m => m.personId = pm.personId ∧ m.kind = k) ms := by
  have hbridge : findLastPerson ms = lastMatching (fun m => m.kind = MKind.person) ms :=
    find?_reverse_eq_lastMatching _ ms
  have h1 : process_measurements ms
      = (ms.filter (fun m => m.personId = pm.personId)).foldl process_measurement [] := by
    unfold process_measurements
    rw [hbridge, hpm]
  rw [h1, process_foldl_lookup pm.personId k hk,
    lastMatching_filter _ _ (fun m hm => by simpa using (by simpa using hm : _ ∧ _).1) ms]
  cases lastMatching (fun m => m.personId = pm.personId ∧ m.kind = k) ms <;> rfl

/-- Witness for C2: two weight entries for person 1 in arrival order
`[A (timestamp 200), B (timestamp 100)]` aggregate to `B`, the most recently
arrived, despite `A` carrying the later embedded timestamp. -/
theorem aggregation_last_write_wins_witness :
    dictLookup (process_measurements [pInfo 1, wRead 1 200 75, wRead 1 100 76])
      (1, MKind.weight) = some (wRead 1 100 76) :=
  (aggregation_last_write_wins [pInfo 1, wRead 1 200 75, wRead 1 100 76]
    (pInfo 1) MKind.weight (by decide) (by decide)).trans (by decide)

/-! ### Session control flow (`ble_scanner.py`, `BLEScanner`) -/

/-- How the notification-collection loop of `connect_to_device` ended: the
30-second wall-clock deadline expired, a `BTLEDisconnectError` was caught
inside the loop, or another exception was caught inside the loop. -/
inductive CollectEnd where
  | timedOut
  | disconnected
  | waitError
  deriving DecidableEq, Repr

/-- Nondeterministic transport events of one connection attempt whose
peripheral construction succeeded: whether the weight service and the command
characteristic were discovered, the decoded notifications appended during the
collection window (in arrival order), how the window ended, and whether
`peripheral.disconnect()` raises. -/
structure SessionEnv where
  serviceFound : Bool
  writeCharFound : Bool
  collected : List Measurement
  outcome : CollectEnd
  disconnectRaises : Bool
  deriving DecidableEq, Repr

/-- Observable outcome of one connection attempt: the batch passed to
`plugin.process_measurements` (`none` when the plugins were never invoked),
whether a disconnect was attempted, the attempt's return value, and whether
an exception escaped to the caller. -/
structure SessionResult where
  handedToPlugins : Option (List Measurement)
  disconnectAttempted : Bool
  returnValue : Bool
  raisedToCaller : Bool
  deriving DecidableEq, Repr

/-- `BLEScanner._process_collected_measurements`: the plugins are invoked on
the batch only under `if self.plugins and self.measurements:` — that is, only
when at least one plugin is loaded and the batch is nonempty; otherwise only
a warning is logged. -/
def processCollected (hasPlugins : Bool) (measurements : List Measurement) :
    Option (List Measurement) :=
  if hasPlugins ∧ measurements ≠ [] then some measurements else none

/-- One connection attempt of `BLEScanner.connect_to_device` whose
`btle.Peripheral` construction succeeded (`ble_scanner.py` lines 120–199):
when the weight service and write characteristic are found, the collection
loop runs — its `BTLEDisconnectError` and generic exceptions are caught with
`break` — and `_process_collected_measurements()` runs after the loop no
matter how it ended; the `finally` block always attempts a disconnect,
ignoring disconnect errors; the attempt then returns `True` and raises
nothing. -/
def connectAttempt (hasPlugins : Bool) (env : SessionEnv) : SessionResult :=
  if env.serviceFound ∧ env.writeCharFound then
    { handedToPlugins := processCollected hasPlugins env.collected
      disconnectAttempted := true
      returnValue := true
      raisedToCaller := false }
  else
    { handedToPlugins := none
      disconnectAttempted := true
      returnValue := true
      raisedToCaller := false }

/-! ### Session claims -/

/-- Counterexample to C7 as stated: a session reaching collection, with
plugins loaded, whose full 30-second window collected an empty batch, does
NOT hand the (empty) batch to the aggregator — `_process_collected_measurements`
skips the plugins under `if self.plugins and self.measurements:`. -/
theorem session_empty_batch_not_handed :
    (connectAttempt true
      { serviceFound := true, writeCharFound := true, collected := [],
        outcome := .timedOut, disconnectRaises := false }).handedToPlugins
      ≠ some [] := by
  decide

/-- Claim C7 (amended): at end of session a disconnect is always attempted
with disconnect errors ignored and nothing raised, the result is independent
of whether the window ended by timeout or early disconnect (and of whether
the disconnect raises), and the collected batch is handed to the plugins
exactly when plugins are loaded and the batch is nonempty. -/
theorem session_batch_handoff (hasPlugins : Bool) (env : SessionEnv)
    (h : env.serviceFound = true ∧ env.writeCharFound = true) :
    (connectAttempt hasPlugins env).disconnectAttempted = true
    ∧ (connectAttempt hasPlugins env).raisedToCaller = false
    ∧ (connectAttempt hasPlugins env).handedToPlugins
        = (if hasPlugins ∧ env.collected ≠ [] then some env.collected else none)
    ∧ (∀ o o' dr dr',
        connectAttempt hasPlugins { env with outcome := o, disconnectRaises := dr }
          = connectAttempt hasPlugins { env with outcome := o', disconnectRaises := dr' }) := by
  refine ⟨?_, ?_, ?_, ?_⟩
  · unfold connectAttempt
    by_cases hc : env.serviceFound = true ∧ env.writeCharFound = true <;> simp [hc]
  · unfold connectAttempt
    by_cases hc : env.serviceFound = true ∧ env.writeCharFound = true <;> simp [hc]
  · unfold connectAttempt processCollected
    simp [h.1, h.2]
  · intro o o' dr dr'
    unfold connectAttempt
    simp

/-- Witness for C7 (amended): a session ended early by a disconnect, whose
own disconnect attempt raises, still hands its nonempty batch onward, has
attempted the disconnect, and raises nothing. -/
theorem session_batch_handoff_witness :
    (connectAttempt true
      { serviceFound := true, writeCharFound := true, collected := [pInfo 1],
        outcome := .disconnected, disconnectRaises := true }).handedToPlugins
      = some [pInfo 1]
    ∧ (connectAttempt true
      { serviceFound := true, writeCharFound := true, collected := [pInfo 1],
        outcome := .disconnected, disconnectRaises := true }).disconnectAttempted = true :=
  ⟨((session_batch_handoff true
      { serviceFound := true, writeCharFound := true, collected := [pInfo 1],
        outcome := .disconnected, disconnectRaises := true } ⟨rfl, rfl⟩).2.2.1).trans
      (by decide),
   (session_batch_handoff true
      { serviceFound := true, writeCharFound := true, collected := [pInfo 1],
        outcome := .disconnected, disconnectRaises := true } ⟨rfl, rfl⟩).1⟩

/-- Counterexample to C8 as stated: a session that collected zero
notifications over the full window does NOT report overall failure —
`connect_to_device` reaches `return True` on that path. -/
theorem session_zero_notifications_cex :
    ¬ ((connectAttempt true
      { serviceFound := true, writeCharFound := true, collected := [],
        outcome := .timedOut, disconnectRaises := false }).returnValue = false) := by
  decide

/-- Claim C8 (amended): a session collecting zero notifications over the full
30-second window still attempts a clean disconnect, raises no exception to
the caller, and reports overall SUCCESS (`connect_to_device` returns `True`);
no batch reaches the plugins. -/
theorem session_zero_notifications (hasPlugins dr : Bool) :
    connectAttempt hasPlugins
      { serviceFound := true, writeCharFound := true, collected := [],
        outcome := .timedOut, disconnectRaises := dr }
      = { handedToPlugins := none, disconnectAttempted := true,
          returnValue := true, raisedToCaller := false } := by
  cases hasPlugins <;> cases dr <;> rfl

/-! ### Device scanning (`ble_scanner.py`, `BLEScanner.scan_devices`) -/

/-- ASCII lower-casing of one character code, as `str.lower()` acts on the
characters of a MAC address string. -/
def lowerByte (c : Nat) : Nat := if 65 ≤ c ∧ c ≤ 90 then c + 32 else c

/-- `mac.lower()` over a MAC address modelled as its list of character
codes. -/
def lowerAddr (a : List Nat) : List Nat := a.map lowerByte

/-- A device returned by one BLE scan, together with the outcome
`connect_to_device` would have for it. -/
structure Device where
  addr : List Nat
  sessionSucceeds : Bool
  deriving DecidableEq, Repr

/-- The `for dev in devices:` loop of `BLEScanner.scan_devices`: each
discovered device's address is lower-cased and tested against
`self.target_macs`; on a match `connect_to_device` is called at once, and a
`True` result returns from the whole scan; a `False` result falls through to
the next candidate.  Returns the list of devices on which a connection was
attempted, and whether the loop returned `True`. -/
def scanCycle (target_macs : List (List Nat)) :
    List Device → List Device × Bool
  | [] => ([], false)
  | d :: rest =>
    if lowerAddr d.addr ∈ target_macs then
      if d.sessionSucceeds then ([d], true)
      else
        let r := scanCycle target_macs rest
        (d :: r.1, r.2)
    else scanCycle target_macs rest

/-- One scan cycle as run by a `BLEScanner`: `__init__` lower-cases the
configured allowlist (`self.target_macs = [mac.lower() for mac in
target_macs]`) before the loop compares lower-cased device addresses against
it. -/
def scanDevicesCycle (raw_macs : List (List Nat)) (devices : List Device) :
    List Device × Bool :=
  scanCycle (raw_macs.map lowerAddr) devices

/-- Specification-side prefix of a candidate list: every device up to and
including the first whose session succeeds. -/
def attemptsUntilSuccess : List Device → List Device
  | [] => []
  | d :: rest => if d.sessionSucceeds then [d] else d :: attemptsUntilSuccess rest

theorem scanCycle_eq (target_macs : List (List Nat)) :
    ∀ devices : List Device,
      scanCycle target_macs devices
        = (attemptsUntilSuccess
            (devices.filter (fun d => lowerAddr d.addr ∈ target_macs)),
           (devices.filter (fun d => lowerAddr d.addr ∈ target_macs)).any
             (fun d => d.sessionSucceeds)) := by
  intro devices
  induction devices with
  | nil => rfl
  | cons d rest ih =>
    by_cases hmem : lowerAddr d.addr ∈ target_macs
    · rw [List.filter_cons_of_pos (by simpa using hmem)]
      by_cases hs : d.sessionSucceeds = true
      · simp [scanCycle, hmem, hs, attemptsUntilSuccess]
      · have hs' : d.sessionSucceeds = false := Bool.eq_false_iff.mpr hs
        simp [scanCycle, hmem, hs', attemptsUntilSuccess, ih]
    · rw [List.filter_cons_of_neg (by simpa using hmem)]
      simp [scanCycle, hmem, ih]

/-- Counterexample to C9 as stated: in a cycle whose first matching device's
session fails, further candidates ARE evaluated — here the allowlisted
address (as `"a"`) matches the first device (address `"A"`, lower-cased) whose
session fails, and the scanner then also attempts the second device. -/
theorem scan_cycle_not_single_attempt :
    ¬ ((scanDevicesCycle [[97]]
        [{ addr := [65], sessionSucceeds := false },
         { addr := [97], sessionSucceeds := true }]).1.length ≤ 1) := by
  decide

/-- Claim C9 (amended): in every scan cycle each discovered device's address
is lower-cased and compared against the (lower-cased) allowlist; matching
devices are attempted in discovery order, stopping — with the cycle reporting
success — at the first whose session succeeds; a failed session falls through
to the next matching candidate. -/
theorem scan_cycle_characterization (raw_macs : List (List Nat))
    (devices : List Device) :
    scanDevicesCycle raw_macs devices
      = (attemptsUntilSuccess
          (devices.filter (fun d => lowerAddr d.addr ∈ raw_macs.map lowerAddr)),
         (devices.filter (fun d => lowerAddr d.addr ∈ raw_macs.map lowerAddr)).any
           (fun d => d.sessionSucceeds)) :=
  scanCycle_eq (raw_macs.map lowerAddr) devices
